import Mathlib

/-!
Shallow embedding of the `logging` package of ncruces/go-gcf
(src/logging/logging.go): severity levels, execution-id derivation from a
request context, logger construction, message formatting and dispatch
(remote backend vs console fallback), flush, and process initialization.
External effects (the cloud backend, stdout/stderr) are made explicit:
a log call returns a `LogOutput` describing exactly what the Go code
hands to the backend or writes to a console stream.
-/

namespace Logging

/-- Severity levels of the cloud logging client library, with the numeric
values of the `cloud.google.com/go/logging` constants (Default = 0,
Debug = 100, ..., Emergency = 800); the Go code compares them with `>=`. -/
inductive Severity where
  | default
  | debug
  | info
  | notice
  | warning
  | error
  | critical
  | alert
  | emergency
deriving DecidableEq, Repr

/-- Numeric value of a severity constant in the client library. -/
def Severity.val : Severity → Nat
  | .default => 0
  | .debug => 100
  | .info => 200
  | .notice => 300
  | .warning => 400
  | .error => 500
  | .critical => 600
  | .alert => 700
  | .emergency => 800

/-- Platform invocation metadata (`cloud.google.com/go/functions/metadata`);
only the event identifier is consumed by this package. -/
structure Metadata where
  EventID : String
deriving DecidableEq, Repr

/-- A Go `context.Context` restricted to the two pieces of data this package
reads: the platform metadata record (retrievable via `metadata.FromContext`,
`none` when not retrievable) and the value stored under the package's private
`contextKey{}` by `ForRequest` (`none` when unset). -/
structure Context where
  meta : Option Metadata
  execId : Option String
deriving DecidableEq, Repr

/-- An inbound HTTP request: its context and its header lookup
(`r.Header.Get`, which returns the empty string for an absent header). -/
structure Request where
  reqCtx : Context
  headerGet : String → String

/-- `ForRequest` (logging.go:65-72): read the Function-Execution-Id header;
when non-empty, derive a context carrying it under the private context key,
otherwise return the request's context unchanged. -/
def ForRequest (r : Request) : Context :=
  let ctx := r.reqCtx
  let id := r.headerGet "Function-Execution-Id"
  if id ≠ "" then { ctx with execId := some id } else ctx

/-- The process-wide backend handle (`*logging.Logger` of the client
library); the only behavior of it this package observes directly is the
result of its `Flush` (`none` = success, `some e` = transmission error). -/
structure BackendHandle where
  flushResult : Option String
deriving DecidableEq, Repr

/-- `Flush` (logging.go:75-80): delegate to the backend when the handle is
set, otherwise return nil (no error). -/
def Flush (backend : Option BackendHandle) : Option String :=
  match backend with
  | some l => l.flushResult
  | none => none

/-- A contextualized logging value: severity and execution-id
(logging.go:83-86). -/
structure Logger where
  s : Severity
  id : String
deriving DecidableEq, Repr

/-- `strings.TrimRight(s, "\n")`: remove every trailing newline character. -/
def trimRightNewline (s : String) : String :=
  String.mk ((s.data.reverse.dropWhile (fun c => c == '\n')).reverse)

/-- A `logging.Entry` as this package constructs it: severity, payload
string, labels map (empty unless the execution-id label is attached). -/
structure Entry where
  severity : Severity
  payload : String
  labels : List (String × String)
deriving DecidableEq, Repr

/-- The observable effect of one log call: an entry handed to the backend,
or a line written to the error stream or the standard output stream. -/
inductive LogOutput where
  | remote (e : Entry)
  | stderrLine (s : String)
  | stdoutLine (s : String)
deriving DecidableEq, Repr

/-- `Logger.log` (logging.go:88-110): trim trailing newlines; if the backend
handle is set, build an entry (attaching the `execution_id` label only when
the id is non-empty) and hand it to the backend; otherwise write the text
plus a newline to stderr when severity ≥ error, else to stdout
(`fmt.Fprintln` / `fmt.Println` append the newline). -/
def Logger.log (backend : Option BackendHandle) (l : Logger) (s0 : String) :
    LogOutput :=
  let s := trimRightNewline s0
  match backend with
  | some _ =>
    let labels := if l.id ≠ "" then [("execution_id", l.id)] else []
    .remote { severity := l.s, payload := s, labels := labels }
  | none =>
    if Severity.val Severity.error ≤ Severity.val l.s then
      .stderrLine (s ++ "\n")
    else
      .stdoutLine (s ++ "\n")

/-- An operand passed to the variadic formatting entry points; strings and
integers suffice for the behaviors specified. -/
inductive GoVal where
  | str (s : String)
  | int (n : Int)
deriving DecidableEq, Repr

/-- Default `%v` formatting of one operand. -/
def GoVal.format : GoVal → String
  | .str s => s
  | .int n => toString n

/-- Whether an operand is a string (controls spacing in `fmt.Sprint`). -/
def GoVal.isStr : GoVal → Bool
  | .str _ => true
  | .int _ => false

/-- `fmt.Sprint`: concatenate default formats, inserting a space only
between two adjacent operands neither of which is a string. -/
def sprint : List GoVal → String
  | [] => ""
  | [v] => v.format
  | v :: w :: rest =>
    v.format ++ (if v.isStr || w.isStr then "" else " ") ++ sprint (w :: rest)

/-- `fmt.Sprintln`: space-separate all operands and append a newline. -/
def sprintln (vs : List GoVal) : String :=
  String.intercalate " " (vs.map GoVal.format) ++ "\n"

/-- `Logger.Print` (logging.go:114-116). -/
def Logger.Print (backend : Option BackendHandle) (l : Logger)
    (v : List GoVal) : LogOutput :=
  l.log backend (sprint v)

/-- `Logger.Println` (logging.go:119-121). -/
def Logger.Println (backend : Option BackendHandle) (l : Logger)
    (v : List GoVal) : LogOutput :=
  l.log backend (sprintln v)

/-- `Logger.Printf` (logging.go:124-126): `fmt.Sprintf` is external
formatting, so the method is embedded as a function of the already
formatted text it produces. -/
def Logger.Printf (backend : Option BackendHandle) (l : Logger)
    (formatted : String) : LogOutput :=
  l.log backend formatted

/-- The static resource descriptor attached to every remote entry. -/
structure MonitoredResource where
  type : String
  labels : List (String × String)
deriving DecidableEq, Repr

/-- A constructed remote client (`logging.NewClient` result); its `Logger`
method binds a log id and a common resource to a backend handle. -/
structure Client where
  mkLogger : String → MonitoredResource → BackendHandle

/-- Result of process initialization: the backend handle (possibly unset)
and the warning lines written to the error stream. -/
structure InitResult where
  backend : Option BackendHandle
  stderrLines : List String

/-- `init` (logging.go:29-59): read the three environment variables
(`os.Getenv` yields the empty string when unset); on any missing variable,
or on client construction failure, print one warning line to stderr and
leave the handle unset; otherwise bind the client to the fixed resource
descriptor. `newClient` embeds the external `logging.NewClient`. -/
def initLogging (project function region : String)
    (newClient : String → Except String Client) : InitResult :=
  if project = "" then
    { backend := none
      stderrLines :=
        ["Failed to create logging client: GCP_PROJECT environment variable unset or missing"] }
  else if function = "" then
    { backend := none
      stderrLines :=
        ["Failed to create logging client: FUNCTION_NAME environment variable unset or missing"] }
  else if region = "" then
    { backend := none
      stderrLines :=
        ["Failed to create logging client: FUNCTION_REGION environment variable unset or missing"] }
  else
    match newClient project with
    | .error e =>
      { backend := none
        stderrLines := ["Failed to create logging client: " ++ e] }
    | .ok client =>
      let res : MonitoredResource :=
        { type := "cloud_function"
          labels := [("region", region), ("function_name", function)] }
      { backend :=
          some (client.mkLogger "cloudfunctions.googleapis.com/cloud-functions" res)
        stderrLines := [] }

/-- `newLogger` (logging.go:129-139): with a nil context the id is empty;
otherwise, when platform metadata is retrievable, its event id is used
(unconditionally); otherwise the value under the private context key is
used via a comma-ok type assertion (empty string when absent). -/
def newLogger (ctx : Option Context) (s : Severity) : Logger :=
  match ctx with
  | none => { s := s, id := "" }
  | some c =>
    match c.meta with
    | some m => { s := s, id := m.EventID }
    | none => { s := s, id := c.execId.getD "" }

/-- `Default` (logging.go:142-144). -/
def Default (ctx : Option Context) : Logger := newLogger ctx .default

/-- `Debug` (logging.go:147-149). -/
def Debug (ctx : Option Context) : Logger := newLogger ctx .debug

/-- `Info` (logging.go:152-154). -/
def Info (ctx : Option Context) : Logger := newLogger ctx .info

/-- `Notice` (logging.go:157-159). -/
def Notice (ctx : Option Context) : Logger := newLogger ctx .notice

/-- `Warning` (logging.go:162-164). -/
def Warning (ctx : Option Context) : Logger := newLogger ctx .warning

/-- `Error` (logging.go:167-169). -/
def Error (ctx : Option Context) : Logger := newLogger ctx .error

/-- `Critical` (logging.go:172-174). -/
def Critical (ctx : Option Context) : Logger := newLogger ctx .critical

/-- `Alert` (logging.go:177-179). -/
def Alert (ctx : Option Context) : Logger := newLogger ctx .alert

/-- `Emergency` (logging.go:182-184). -/
def Emergency (ctx : Option Context) : Logger := newLogger ctx .emergency

/-- The nine severities, lowest to highest. -/
def allSeverities : List Severity :=
  [.default, .debug, .info, .notice, .warning, .error, .critical, .alert,
   .emergency]

/-! ## Helper lemmas -/

/-- Trimming trailing newlines absorbs one appended newline. -/
theorem trimRightNewline_append_newline (t : String) :
    trimRightNewline (t ++ "\n") = trimRightNewline t := by
  simp [trimRightNewline, String.data_append, List.dropWhile]

/-- Dispatch depends on the formatted text only through its trimmed form. -/
theorem log_congr (backend : Option BackendHandle) (l : Logger) {s1 s2 : String}
    (h : trimRightNewline s1 = trimRightNewline s2) :
    Logger.log backend l s1 = Logger.log backend l s2 := by
  unfold Logger.log
  rw [h]

/-- Trimming removes exactly a (possibly empty) run of trailing newlines. -/
theorem trim_decomposition (t : String) :
    ∃ n : Nat, t = trimRightNewline t ++ String.mk (List.replicate n '\n') := by
  have htake : ∀ b ∈ t.data.reverse.takeWhile (fun c => c == '\n'), b = '\n' := by
    intro b hb
    have := List.mem_takeWhile_imp hb
    simpa using this
  refine ⟨(t.data.reverse.takeWhile (fun c => c == '\n')).length, ?_⟩
  apply String.ext
  rw [String.data_append]
  have hrepl := List.eq_replicate_length.mpr htake
  have hsplit :=
    List.takeWhile_append_dropWhile (fun c => c == '\n') t.data.reverse
  have hdec : t.data =
      (t.data.reverse.dropWhile (fun c => c == '\n')).reverse ++
        (t.data.reverse.takeWhile (fun c => c == '\n')).reverse := by
    conv_lhs => rw [← List.reverse_reverse t.data, ← hsplit]
    rw [List.reverse_append]
  show t.data = (t.data.reverse.dropWhile (fun c => c == '\n')).reverse ++
      List.replicate (t.data.reverse.takeWhile (fun c => c == '\n')).length '\n'
  conv_lhs => rw [hdec]
  congr 1
  conv_lhs => rw [hrepl]
  exact List.reverse_replicate _ _

/-- The severity of a constructed Logger is the requested one. -/
theorem newLogger_s (ctx : Option Context) (s : Severity) :
    (newLogger ctx s).s = s := by
  rcases ctx with _ | ⟨m, e⟩
  · rfl
  · cases m <;> rfl

/-! ## Claim theorems -/

/-- Claim C1: the execution-id of a Logger built from a context follows this
precedence: when platform metadata is retrievable its event id is used,
regardless of the header-derived value; otherwise the header-derived value
stored by ForRequest is used; otherwise the id is empty. -/
theorem C1_execution_id_precedence (s : Severity) (c : Context) :
    (∀ m, c.meta = some m → (newLogger (some c) s).id = m.EventID) ∧
    (c.meta = none → ∀ v, c.execId = some v → (newLogger (some c) s).id = v) ∧
    (c.meta = none → c.execId = none → (newLogger (some c) s).id = "") := by
  refine ⟨?_, ?_, ?_⟩ <;> intros <;> simp_all [newLogger]

/-- Witness for C1 at a context carrying both metadata and a header id. -/
theorem C1_execution_id_precedence_witness :
    (newLogger (some { meta := some { EventID := "evt" }, execId := some "hdr" })
        Severity.info).id = "evt" :=
  (C1_execution_id_precedence Severity.info
      { meta := some { EventID := "evt" }, execId := some "hdr" }).1
    { EventID := "evt" } rfl

/-- Claim C9: a retrievable metadata record with an empty event id makes the
Logger's id empty, suppressing the header-derived fallback unconditionally. -/
theorem C9_empty_eventid_suppresses_header (s : Severity) (c : Context)
    (m : Metadata) (hm : c.meta = some m) (he : m.EventID = "") :
    (newLogger (some c) s).id = "" := by
  simp [newLogger, hm, he]

/-- Witness for C9: empty event id beside a non-empty header value. -/
theorem C9_empty_eventid_suppresses_header_witness :
    (newLogger (some { meta := some { EventID := "" }, execId := some "hdr" })
        Severity.error).id = "" :=
  C9_empty_eventid_suppresses_header Severity.error
    { meta := some { EventID := "" }, execId := some "hdr" } { EventID := "" }
    rfl rfl

/-- Claim C6: Flush returns no error when the backend handle is unset, and
delegates to the backend's flush result when it is set. -/
theorem C6_flush (b : BackendHandle) :
    Flush none = none ∧ Flush (some b) = b.flushResult :=
  ⟨rfl, rfl⟩

/-- Claim C8: the nine severity-named factories each return a Logger with the
named severity, and the nine severities are totally ordered lowest to highest
as default < debug < info < notice < warning < error < critical < alert <
emergency, exhausting the severity type. -/
theorem C8_nine_severity_factories (ctx : Option Context) :
    (Default ctx).s = Severity.default ∧
    (Debug ctx).s = Severity.debug ∧
    (Info ctx).s = Severity.info ∧
    (Notice ctx).s = Severity.notice ∧
    (Warning ctx).s = Severity.warning ∧
    (Error ctx).s = Severity.error ∧
    (Critical ctx).s = Severity.critical ∧
    (Alert ctx).s = Severity.alert ∧
    (Emergency ctx).s = Severity.emergency ∧
    allSeverities.length = 9 ∧
    List.Chain' (fun a b => Severity.val a < Severity.val b) allSeverities ∧
    ∀ s : Severity, s ∈ allSeverities := by
  refine ⟨newLogger_s ctx _, newLogger_s ctx _, newLogger_s ctx _,
    newLogger_s ctx _, newLogger_s ctx _, newLogger_s ctx _, newLogger_s ctx _,
    newLogger_s ctx _, newLogger_s ctx _, rfl,
    by simp [allSeverities, List.chain'_cons, Severity.val], fun s => ?_⟩
  cases s <;> simp [allSeverities]

/-- Claim C2: with the backend handle absent, no log call produces a remote
entry; Print, Println and Printf write the trimmed text plus a newline to the
error stream when severity is error or higher, else to standard output. -/
theorem C2_console_fallback (l : Logger) (vs : List GoVal) (f : String) :
    (∀ e, Logger.Print none l vs ≠ LogOutput.remote e ∧
        Logger.Println none l vs ≠ LogOutput.remote e ∧
        Logger.Printf none l f ≠ LogOutput.remote e) ∧
    (Severity.val Severity.error ≤ Severity.val l.s →
        Logger.Print none l vs =
          LogOutput.stderrLine (trimRightNewline (sprint vs) ++ "\n") ∧
        Logger.Println none l vs =
          LogOutput.stderrLine (trimRightNewline (sprintln vs) ++ "\n") ∧
        Logger.Printf none l f =
          LogOutput.stderrLine (trimRightNewline f ++ "\n")) ∧
    (Severity.val l.s < Severity.val Severity.error →
        Logger.Print none l vs =
          LogOutput.stdoutLine (trimRightNewline (sprint vs) ++ "\n") ∧
        Logger.Println none l vs =
          LogOutput.stdoutLine (trimRightNewline (sprintln vs) ++ "\n") ∧
        Logger.Printf none l f =
          LogOutput.stdoutLine (trimRightNewline f ++ "\n")) := by
  unfold Logger.Print Logger.Println Logger.Printf Logger.log
  by_cases h : Severity.val Severity.error ≤ Severity.val l.s <;> simp [h]

/-- Witness for C2 at severity error (error stream branch). -/
theorem C2_console_fallback_witness :
    Logger.Println none { s := Severity.error, id := "" } [GoVal.str "x"] =
      LogOutput.stderrLine (trimRightNewline (sprintln [GoVal.str "x"]) ++ "\n") :=
  ((C2_console_fallback { s := Severity.error, id := "" } [GoVal.str "x"]
      "").2.1 (by decide)).2.1

/-- Claim C3: ForRequest stores a present, non-empty execution-id header
value in a derived context and otherwise returns the request's context
unchanged; a Logger later built from the derived context (absent platform
metadata) reports exactly the header value. -/
theorem C3_ForRequest_header (r : Request) :
    (r.headerGet "Function-Execution-Id" ≠ "" →
        ForRequest r =
          { r.reqCtx with execId := some (r.headerGet "Function-Execution-Id") }) ∧
    (r.headerGet "Function-Execution-Id" = "" → ForRequest r = r.reqCtx) ∧
    (∀ s, r.reqCtx.meta = none → r.headerGet "Function-Execution-Id" ≠ "" →
        (newLogger (some (ForRequest r)) s).id =
          r.headerGet "Function-Execution-Id") := by
  refine ⟨fun h => by simp [ForRequest, h], fun h => by simp [ForRequest, h],
    fun s hm h => ?_⟩
  have h1 : ForRequest r =
      { r.reqCtx with execId := some (r.headerGet "Function-Execution-Id") } := by
    simp [ForRequest, h]
  rw [h1]
  simp [newLogger, hm]

/-- A concrete request whose execution-id header is "X". -/
def reqX : Request :=
  { reqCtx := { meta := none, execId := none }
    headerGet := fun h => if h = "Function-Execution-Id" then "X" else "" }

/-- Witness for C3 at a request carrying header value "X". -/
theorem C3_ForRequest_header_witness :
    (newLogger (some (ForRequest reqX)) Severity.info).id = "X" := by
  have h := (C3_ForRequest_header reqX).2.2 Severity.info rfl (by decide)
  simpa [reqX] using h

/-- Claim C4: with the backend handle set, a log call hands the backend an
entry carrying the Logger's severity, the trimmed text as payload, and the
single label execution_id exactly when the id is non-empty; nothing is
written to either console stream. -/
theorem C4_backend_entry (b : BackendHandle) (l : Logger) (t : String) :
    ∃ e, Logger.log (some b) l t = LogOutput.remote e ∧
      e.severity = l.s ∧
      e.payload = trimRightNewline t ∧
      e.labels = (if l.id = "" then [] else [("execution_id", l.id)]) ∧
      ∀ x, Logger.log (some b) l t ≠ LogOutput.stderrLine x ∧
        Logger.log (some b) l t ≠ LogOutput.stdoutLine x := by
  refine ⟨_, rfl, rfl, rfl, ?_, fun x => by simp [Logger.log]⟩
  by_cases h : l.id = "" <;> simp [Logger.log, h]

/-- Claim C5: trailing newlines are stripped before dispatch, so
Println("a") and Print("a\n") dispatch identically, with logged payload
"a" when the backend is set. -/
theorem C5_trailing_newline_stripped (backend : Option BackendHandle)
    (l : Logger) (t : String) :
    trimRightNewline (t ++ "\n") = trimRightNewline t ∧
    Logger.Println backend l [GoVal.str "a"] = Logger.log backend l "a" ∧
    Logger.Print backend l [GoVal.str "a\n"] = Logger.log backend l "a" ∧
    Logger.Println backend l [GoVal.str "a"] =
      Logger.Print backend l [GoVal.str "a\n"] ∧
    ∀ b, ∃ e, Logger.log (some b) l "a\n" = LogOutput.remote e ∧
      e.payload = "a" := by
  have h1 : Logger.Println backend l [GoVal.str "a"] =
      Logger.log backend l "a" := by
    show Logger.log backend l (sprintln [GoVal.str "a"]) =
      Logger.log backend l "a"
    exact log_congr backend l (by decide)
  have h2 : Logger.Print backend l [GoVal.str "a\n"] =
      Logger.log backend l "a" := by
    show Logger.log backend l (sprint [GoVal.str "a\n"]) =
      Logger.log backend l "a"
    exact log_congr backend l (by decide)
  exact ⟨trimRightNewline_append_newline t, h1, h2, h1.trans h2.symm,
    fun b => ⟨_, rfl, by show trimRightNewline "a\n" = "a"; decide⟩⟩

/-- Claim C10: dispatch strips only trailing newline characters, not
carriage returns or other whitespace, and preserves interior newlines:
Print("a\r\n") dispatches "a\r", and every string is its trimmed form
followed by a run of newlines. -/
theorem C10_only_newline_trimmed (backend : Option BackendHandle)
    (l : Logger) :
    Logger.Print backend l [GoVal.str "a\r\n"] = Logger.log backend l "a\r" ∧
    trimRightNewline "a\r\n" = "a\r" ∧
    trimRightNewline "a\nb" = "a\nb" ∧
    trimRightNewline " a \t" = " a \t" ∧
    (∀ b, ∃ e, Logger.log (some b) l "a\r\n" = LogOutput.remote e ∧
      e.payload = "a\r") ∧
    ∀ t : String, ∃ n : Nat,
      t = trimRightNewline t ++ String.mk (List.replicate n '\n') := by
  refine ⟨?_, by decide, by decide, by decide,
    fun b => ⟨_, rfl, by show trimRightNewline "a\r\n" = "a\r"; decide⟩,
    trim_decomposition⟩
  show Logger.log backend l (sprint [GoVal.str "a\r\n"]) =
    Logger.log backend l "a\r"
  exact log_congr backend l (by decide)

/-- Claim C7: when any of the three environment variables is missing,
initialization writes exactly one warning line to the error stream, leaves
the backend handle unset, and never fails; every subsequent log call then
degrades to console output routed by severity. -/
theorem C7_missing_env_soft_failure (project function region : String)
    (newClient : String → Except String Client)
    (h : project = "" ∨ function = "" ∨ region = "") :
    (initLogging project function region newClient).backend = none ∧
    (initLogging project function region newClient).stderrLines.length = 1 ∧
    ∀ l : Logger, ∀ t : String,
      (∀ e, Logger.log (initLogging project function region newClient).backend
          l t ≠ LogOutput.remote e) ∧
      (Severity.val Severity.error ≤ Severity.val l.s →
        Logger.log (initLogging project function region newClient).backend l t =
          LogOutput.stderrLine (trimRightNewline t ++ "\n")) ∧
      (Severity.val l.s < Severity.val Severity.error →
        Logger.log (initLogging project function region newClient).backend l t =
          LogOutput.stdoutLine (trimRightNewline t ++ "\n")) := by
  have key : (initLogging project function region newClient).backend = none ∧
      (initLogging project function region newClient).stderrLines.length = 1 := by
    by_cases hp : project = ""
    · simp [initLogging, hp]
    · by_cases hf : function = ""
      · simp [initLogging, hp, hf]
      · have hr : region = "" := by tauto
        simp [initLogging, hp, hf, hr]
  refine ⟨key.1, key.2, fun l t => ?_⟩
  rw [key.1]
  unfold Logger.log
  by_cases hs : Severity.val Severity.error ≤ Severity.val l.s <;> simp [hs]

/-- A client constructor that always succeeds, for the C7 witness. -/
def okClient : String → Except String Client :=
  fun _ => Except.ok { mkLogger := fun _ _ => { flushResult := none } }

/-- Witness for C7 with the project id variable unset. -/
theorem C7_missing_env_soft_failure_witness :
    (initLogging "" "f" "r" okClient).backend = none ∧
    (initLogging "" "f" "r" okClient).stderrLines.length = 1 :=
  ⟨(C7_missing_env_soft_failure "" "f" "r" okClient (Or.inl rfl)).1,
   (C7_missing_env_soft_failure "" "f" "r" okClient (Or.inl rfl)).2.1⟩

end Logging
